import Mathlib

/-!
Verification of the ent runtime fragments under scrutiny: the privacy
policy evaluation chain (documented in doc/md/privacy.md), the generated
delete builder for the IntSID entity
(entc/integration/customid/ent/intsid_delete.go), and the generated
join-table metadata for the TweetTag edge schema
(entc/integration/edgeschema/ent/tweettag/tweettag.go).
-/

namespace Ent

/-! ## Privacy policy engine

The privacy runtime package is not part of the sampled sources; only its
documentation (doc/md/privacy.md) is. The evaluation semantics below is
modelled from that documentation: rules are evaluated in declaration
order; `privacy.Allow` stops evaluation and grants access; `privacy.Deny`
or any other error stops evaluation and cancels the operation;
`privacy.Skip` (equivalent to a nil error) jumps to the next rule; if all
rules are evaluated without returning an error, the evaluation finishes
successfully and the operation gets access. -/

/-- Modelled from the spec: an error produced by a privacy rule.
The privacy runtime is not under the sampled sources. `deny` stands for
`privacy.Denyf(reason)`; `other` stands for any other error value, which
the documentation says is equivalent to returning `Deny`. -/
inductive PolicyErr where
  | deny (reason : String)
  | other (msg : String)
  deriving DecidableEq, Repr

/-- Modelled from the spec: the outcome of one privacy rule, per
doc/md/privacy.md Privacy Decisions: `allow` is `privacy.Allow`, `skip`
is `privacy.Skip` (a nil error), and `fail e` is `privacy.Deny` or any
other error. -/
inductive RuleResult where
  | allow
  | skip
  | fail (e : PolicyErr)
  deriving DecidableEq, Repr

/-- Terminal outcome of a policy evaluation: the operation either gets
access to the target nodes or is cancelled with an error. -/
inductive Decision where
  | allowed
  | denied (e : PolicyErr)
  deriving DecidableEq, Repr

/-- Modelled from the spec: evaluate an ordered privacy rule list, per
doc/md/privacy.md. `Allow` stops with access granted; `Deny` or any other
error stops with the operation cancelled; `Skip` advances to the next
rule; a list evaluated to exhaustion without an error finishes
successfully, granting access. -/
def evalRules : List RuleResult → Decision
  | [] => Decision.allowed
  | RuleResult.allow :: _ => Decision.allowed
  | RuleResult.fail e :: _ => Decision.denied e
  | RuleResult.skip :: rs => evalRules rs

/-- Modelled from the spec: `privacy.DecisionContext` binds a decision to
the ambient context; when a bound decision is present the policy engine
returns it immediately, bypassing all rules (doc/md/privacy.md Decision
Context). -/
def evalPolicy (ctx : Option Decision) (rules : List RuleResult) : Decision :=
  match ctx with
  | some d => d
  | none => evalRules rules

/-- Modelled from the spec: an `Execute` gated by the policy engine; a
`Denied` terminal state surfaces as an error, an `Allowed` terminal state
lets the operation proceed. -/
def execWithPolicy (ctx : Option Decision) (rules : List RuleResult) : Except PolicyErr Unit :=
  match evalPolicy ctx rules with
  | Decision.allowed => Except.ok ()
  | Decision.denied e => Except.error e

/-! ## Predicates and the SQL delete specification

The `sql` builder package is not under the sampled sources. Following the
spec (4.1 Predicate), a predicate applies a boolean condition to the
statement builder and predicates accumulate by conjunction. -/

/-- A database row, abstracted to the value the conditions inspect. -/
def Row := Int

/-- Modelled from the spec: a predicate (`predicate.IntSid`,
a `func(*sql.Selector)` in the source) applies a boolean condition over a
row to the statement builder; the `sql` package itself is not under the
sampled sources, so a predicate is carried as the condition it applies. -/
def Pred := Row → Bool

/-- Modelled from the spec: the statement builder's accumulated WHERE
condition (`sql.Selector` is not under the sampled sources). -/
structure Selector where
  cond : Row → Bool

/-- Modelled from the spec: applying a predicate to the builder conjoins
its condition with the condition already accumulated. -/
def applyPred (p : Pred) (s : Selector) : Selector :=
  Selector.mk (fun r => s.cond r && p r)

/-- The loop body of `sqlExec`: apply each accumulated predicate to the
selector in input order (`for i := range ps ... ps[i](selector)`). -/
def applyPreds (ps : List Pred) (s : Selector) : Selector :=
  ps.foldl (fun s p => applyPred p s) s

/-- Field specification of a node's id column (`sqlgraph.FieldSpec`). -/
structure FieldSpec where
  ftype : String
  column : String

/-- The storage type tag `field.TypeInt64`. -/
def TypeInt64 : String := "int64"

/-- Node specification (`sqlgraph.NodeSpec`): table plus id column. -/
structure NodeSpec where
  table : String
  id : FieldSpec

/-- Delete specification (`sqlgraph.DeleteSpec`): the node and an
optional predicate applied to the delete statement's selector. -/
structure DeleteSpec where
  node : NodeSpec
  predicate : Option (Selector → Selector)

namespace intsid

/-- Modelled from the spec: the generated `intsid` package constants are
not under the sampled sources; the exact strings are immaterial to the
claims, only that the builder copies them into the delete spec. -/
def Table : String := "int_sids"

/-- The id column name of the intsid table. -/
def FieldID : String := "id"

/-- The label used by `NotFoundError` for the IntSID entity. -/
def Label : String := "int_sid"

end intsid

/-! ## The IntSID delete builder

Embedded from entc/integration/customid/ent/intsid_delete.go. The builder
state relevant to `Exec` is its hook list and its mutation; the driver
(the store) is passed explicitly. -/

/-- The mutation state carried by `IntSIDDelete` (`IntSIDMutation`): the
accumulated predicates and the `done` flag set by the terminal mutator. -/
structure IntSIDMutation where
  predicates : List Pred
  done : Bool

/-- The `ent.Mutation` interface value handed to the hook chain: either
an `IntSIDMutation` or a value of some unexpected mutation type. -/
inductive Mutation where
  | intSID (m : IntSIDMutation)
  | unexpected

/-- The `ent.Value` returned by a mutator: the generated terminal step
returns the affected count as an integer; hooks may return anything. -/
inductive Value where
  | int (n : Int)
  | str (s : String)
  | nil
  deriving DecidableEq, Repr

/-- The errors observable from the delete builder: the uninitialized-hook
configuration error, the unexpected-mutation-type error of the terminal
step, `NotFoundError` with its entity label, and store-level errors
surfaced by the driver. -/
inductive GoErr where
  | uninitializedHook
  | unexpectedMutationType
  | notFound (label : String)
  | storeErr (code : Nat)
  deriving DecidableEq, Repr

/-- Modelled from the spec: `sqlgraph.DeleteNodes` is not under the
sampled sources; the driver abstracts the store round-trip, mapping the
delete specification to the affected row count and an optional error. -/
def Driver := DeleteSpec → Int × Option GoErr

/-- The Go pair returned by `Mutate`: a value and an optional error. -/
def MutResult := Value × Option GoErr

/-- The mutable state the `Exec` closure captures: the builder's
`mutation` field and the closed-over `affected` and `err` variables. -/
structure ExecState where
  mutation : IntSIDMutation
  affected : Int
  err : Option GoErr

/-- `ent.Mutator`: `Mutate(ctx, Mutation) (Value, error)`, here threading
the captured state explicitly. -/
def Mutator := Mutation → ExecState → MutResult × ExecState

/-- `ent.Hook`: `func(Mutator) Mutator`. -/
def Hook := Mutator → Mutator

namespace IntSIDDelete

/-- The delete-spec construction inside `sqlExec`: the node spec for the
intsid table with its int64 id column; when the mutation holds at least
one predicate, the spec's `Predicate` is the closure applying each of
them to the selector in input order, otherwise it is left unset. -/
def deleteSpecOf (mu : IntSIDMutation) : DeleteSpec :=
  let base : DeleteSpec :=
    { node := { table := intsid.Table, id := { ftype := TypeInt64, column := intsid.FieldID } }
      predicate := none }
  if 0 < mu.predicates.length then
    { base with predicate := some (fun selector => applyPreds mu.predicates selector) }
  else
    base

/-- `IntSIDDelete.sqlExec`: build the delete spec from the mutation and
execute it through the driver (`sqlgraph.DeleteNodes`). -/
def sqlExec (drv : Driver) (mu : IntSIDMutation) : Int × Option GoErr :=
  drv (deleteSpecOf mu)

/-- The terminal `MutateFunc` closure of `Exec`: checks the mutation
type, stores the received mutation, runs `sqlExec`, assigns the captured
`affected` and `err` variables, marks the mutation done, and returns the
affected count together with the error. -/
def mutateFn (drv : Driver) : Mutator := fun m st =>
  match m with
  | Mutation.unexpected => ((Value.nil, some GoErr.unexpectedMutationType), st)
  | Mutation.intSID mu =>
      let res := sqlExec drv mu
      ((Value.int res.1, res.2),
       { st with
          mutation := { mu with done := true }
          affected := res.1
          err := res.2 })

/-- The hook-composition loop of `Exec`
(`for i := len(hooks)-1; i >= 0; i--`): starting from the terminal
mutator, each hook from the last registered to the first wraps the
mutator built so far; a nil hook slot aborts with the uninitialized-hook
error before anything runs. -/
def hookChain : List (Option Hook) → Mutator → Except GoErr Mutator
  | [], term => Except.ok term
  | h :: rest, term =>
    match hookChain rest term with
    | Except.error e => Except.error e
    | Except.ok inner =>
      match h with
      | none => Except.error GoErr.uninitializedHook
      | some f => Except.ok (f inner)

/-- `IntSIDDelete.Exec`: with no hooks, run `sqlExec` directly; otherwise
build the hook chain around the terminal mutator, invoke it on the
builder's mutation, propagate a chain error as `(0, err)`, and otherwise
return the closure-captured `affected` and `err` variables. -/
def Exec (drv : Driver) (hooks : List (Option Hook)) (m0 : IntSIDMutation) :
    Int × Option GoErr :=
  match hooks with
  | [] => sqlExec drv m0
  | _ :: _ =>
    match hookChain hooks (mutateFn drv) with
    | Except.error e => (0, some e)
    | Except.ok chain =>
      let st0 : ExecState := { mutation := m0, affected := 0, err := none }
      match chain (Mutation.intSID m0) st0 with
      | ((_, some e), _) => (0, some e)
      | ((_, none), st) => (st.affected, st.err)

/-- `IntSIDDelete.ExecX`: like `Exec` but panics on error; the panic is
embedded as the `error` branch of `Except`. -/
def ExecX (drv : Driver) (hooks : List (Option Hook)) (m0 : IntSIDMutation) :
    Except GoErr Int :=
  match Exec drv hooks m0 with
  | (n, none) => Except.ok n
  | (_, some e) => Except.error e

end IntSIDDelete

namespace IntSIDDeleteOne

/-- `IntSIDDeleteOne.Exec`: run the underlying delete; a non-nil error is
returned as is, a zero affected count becomes `NotFoundError` with the
intsid label, and otherwise nil is returned. -/
def Exec (drv : Driver) (hooks : List (Option Hook)) (m0 : IntSIDMutation) :
    Option GoErr :=
  match IntSIDDelete.Exec drv hooks m0 with
  | (_, some e) => some e
  | (n, none) => if n = 0 then some (GoErr.notFound intsid.Label) else none

/-- `IntSIDDeleteOne.ExecX`: delegates to `IntSIDDelete.ExecX`,
discarding the count; the panic is embedded as the `error` branch. -/
def ExecX (drv : Driver) (hooks : List (Option Hook)) (m0 : IntSIDMutation) :
    Except GoErr Unit :=
  match IntSIDDelete.ExecX drv hooks m0 with
  | Except.ok _ => Except.ok ()
  | Except.error e => Except.error e

end IntSIDDeleteOne

/-! ## TweetTag join-table metadata

Embedded from entc/integration/edgeschema/ent/tweettag/tweettag.go. -/

namespace tweettag

/-- The string label denoting the tweettag type in the database. -/
def Label : String := "tweet_tag"

/-- The id field column name. -/
def FieldID : String := "id"

/-- The added_at field column name. -/
def FieldAddedAt : String := "added_at"

/-- The tag_id field column name. -/
def FieldTagID : String := "tag_id"

/-- The tweet_id field column name. -/
def FieldTweetID : String := "tweet_id"

/-- The table name of the tweettag in the database. -/
def Table : String := "tweet_tags"

/-- The table that holds the tag relation/edge. -/
def TagTable : String := "tweet_tags"

/-- The table name for the Tag entity. -/
def TagInverseTable : String := "tags"

/-- The table column denoting the tag relation/edge. -/
def TagColumn : String := "tag_id"

/-- The table that holds the tweet relation/edge. -/
def TweetTable : String := "tweet_tags"

/-- The table name for the Tweet entity. -/
def TweetInverseTable : String := "tweets"

/-- The table column denoting the tweet relation/edge. -/
def TweetColumn : String := "tweet_id"

/-- All SQL columns for tweettag fields. -/
def Columns : List String := [FieldID, FieldAddedAt, FieldTagID, FieldTweetID]

/-- Reports if the column name is valid (part of the table columns),
by scanning `Columns` for an equal entry. -/
def ValidColumn (column : String) : Bool :=
  Columns.any (fun c => column == c)

end tweettag

/-- Modelled from the spec: the migration/schema code carrying the join
table's uniqueness constraint is not under the sampled sources. A join
table for a many-to-many edge is held as its list of
(source-id, target-id) rows. -/
abbrev JoinRows := List (String × String)

/-- Modelled from the spec: the uniqueness constraint on the
(source-id, target-id) pair, i.e. no pair occurs in the table twice. -/
def uniquePair (rows : JoinRows) : Prop := rows.Nodup

/-- Modelled from the spec: inserting an edge row into the join table
under conflict-ignore semantics, as demanded for edge adds where the
relation already exists. -/
def addJoinRow (rows : JoinRows) (p : String × String) : JoinRows :=
  if p ∈ rows then rows else rows ++ [p]

/-! ## Theorems -/

/-- A prefix of rules that all returned `Skip` contributes nothing to the
evaluation. -/
theorem evalRules_skip_pre (pre : List RuleResult)
    (h : ∀ p ∈ pre, p = RuleResult.skip) :
    ∀ l, evalRules (pre ++ l) = evalRules l := by
  intro l
  induction pre with
  | nil => rfl
  | cons p ps ih =>
    have hp : p = RuleResult.skip := h p (List.mem_cons_self p ps)
    subst hp
    have hstep : evalRules (RuleResult.skip :: (ps ++ l)) = evalRules (ps ++ l) := rfl
    rw [List.cons_append, hstep]
    exact ih (fun q hq => h q (List.mem_cons_of_mem _ hq))

/-- C1: in a policy evaluation whose rules before position i all
returned Skip, a rule returning Allow makes the terminal state Allowed
and the rules after it are never evaluated (the outcome is independent of
them); a rule returning Deny or any other error makes the terminal state
Denied with that error and the rules after it are never evaluated; a rule
returning Skip advances the evaluation to the next rule. -/
theorem policy_rule_transition (pre rest rest2 : List RuleResult)
    (h : ∀ p ∈ pre, p = RuleResult.skip) :
    evalRules (pre ++ RuleResult.allow :: rest) = Decision.allowed ∧
    (∀ e, evalRules (pre ++ RuleResult.fail e :: rest) = Decision.denied e) ∧
    evalRules (pre ++ RuleResult.allow :: rest) =
      evalRules (pre ++ RuleResult.allow :: rest2) ∧
    (∀ e, evalRules (pre ++ RuleResult.fail e :: rest) =
      evalRules (pre ++ RuleResult.fail e :: rest2)) ∧
    evalRules (pre ++ RuleResult.skip :: rest) = evalRules (pre ++ rest) := by
  have hs := evalRules_skip_pre pre h
  refine ⟨?_, ?_, ?_, ?_, ?_⟩
  · rw [hs]; rfl
  · intro e; rw [hs]; rfl
  · rw [hs, hs]; rfl
  · intro e; rw [hs, hs]; rfl
  · rw [hs, hs]; rfl

/-- Witness for C1 at a concrete rule list: one Skip rule, then Allow,
with a Deny rule behind it that is never reached. -/
theorem policy_rule_transition_witness :
    evalRules [RuleResult.skip, RuleResult.allow,
      RuleResult.fail (PolicyErr.deny "later")] = Decision.allowed := by
  have h := policy_rule_transition [RuleResult.skip]
    [RuleResult.fail (PolicyErr.deny "later")] [] (by decide)
  simpa using h.1

/-- C2 refutation at a concrete input: a rule list of only
Skip-returning rules evaluates to access granted (Allowed), not to any
Denied default; the evaluation has no configured default decision. -/
theorem policy_exhaustion_counterexample :
    evalRules [RuleResult.skip, RuleResult.skip] = Decision.allowed := rfl

/-- C2 (amended): a rule list in which every rule returns Skip is
evaluated to exhaustion without an error and therefore terminates with
access granted (Allowed); a Denied default is obtained only by
explicitly appending an always-deny rule, in which case the evaluation
terminates Denied with that rule's error. -/
theorem policy_exhaustion_amended (rules : List RuleResult)
    (h : ∀ p ∈ rules, p = RuleResult.skip) :
    evalRules rules = Decision.allowed ∧
    (∀ e, evalRules (rules ++ [RuleResult.fail e]) = Decision.denied e) := by
  constructor
  · have h0 := evalRules_skip_pre rules h []
    rw [List.append_nil] at h0
    exact h0
  · intro e
    rw [evalRules_skip_pre rules h]
    rfl

/-- Witness for the amended C2 at a concrete rule list. -/
theorem policy_exhaustion_amended_witness :
    evalRules [RuleResult.skip] = Decision.allowed ∧
    evalRules [RuleResult.skip, RuleResult.fail (PolicyErr.deny "default-deny")] =
      Decision.denied (PolicyErr.deny "default-deny") := by
  have h := policy_exhaustion_amended [RuleResult.skip] (by decide)
  exact ⟨h.1, by simpa using h.2 (PolicyErr.deny "default-deny")⟩

/-- C3: a bound decision in the ambient context is returned as the
terminal state of the policy evaluation, no rule is consulted (the
outcome is independent of the rule list), and in particular a bound
Allow decision makes the gated execute succeed against a rule list that
would otherwise produce Deny. -/
theorem decision_context_bypass (d : Decision) (rules rules2 : List RuleResult)
    (e : PolicyErr) :
    evalPolicy (some d) rules = d ∧
    evalPolicy (some d) rules = evalPolicy (some d) rules2 ∧
    execWithPolicy (some Decision.allowed) rules = Except.ok () ∧
    execWithPolicy (some Decision.allowed) [RuleResult.fail e] = Except.ok () ∧
    execWithPolicy none [RuleResult.fail e] = Except.error e :=
  ⟨rfl, rfl, rfl, rfl, rfl⟩

/-- The only error the hook-composition loop produces is the
uninitialized-hook error. -/
theorem hookChain_error_uninit (hs : List (Option Hook)) (term : Mutator) :
    ∀ e, IntSIDDelete.hookChain hs term = Except.error e →
      e = GoErr.uninitializedHook := by
  induction hs with
  | nil => intro e h; simp [IntSIDDelete.hookChain] at h
  | cons hd tl ih =>
    intro e h
    cases hrec : IntSIDDelete.hookChain tl term with
    | error e2 =>
      simp [IntSIDDelete.hookChain, hrec] at h
      exact h ▸ ih e2 hrec
    | ok inner =>
      cases hd with
      | none =>
        simp [IntSIDDelete.hookChain, hrec] at h
        exact h.symm
      | some f =>
        simp [IntSIDDelete.hookChain, hrec] at h

/-- A nil slot anywhere in the hook list makes the hook-composition loop
abort with the uninitialized-hook error. -/
theorem hookChain_none (hs1 hs2 : List (Option Hook)) (term : Mutator) :
    IntSIDDelete.hookChain (hs1 ++ none :: hs2) term =
      Except.error GoErr.uninitializedHook := by
  induction hs1 with
  | nil =>
    cases hrec : IntSIDDelete.hookChain hs2 term with
    | error e =>
      simp [IntSIDDelete.hookChain, hrec, hookChain_error_uninit hs2 term e hrec]
    | ok inner =>
      simp [IntSIDDelete.hookChain, hrec]
  | cons hd tl ih =>
    rw [List.cons_append]
    simp [IntSIDDelete.hookChain, ih]

/-- C4: the hook-composition loop of `Exec` folds from the
last-registered hook inward around the terminal mutator, so that for
registered hooks f1, ..., fn the executed chain is
f1 (f2 (... (fn terminal))), i.e. the fold-right of application over the
hook list. -/
theorem exec_hook_chain_foldr (fs : List Hook) (drv : Driver) :
    IntSIDDelete.hookChain (fs.map Option.some) (IntSIDDelete.mutateFn drv) =
      Except.ok (fs.foldr (fun f m => f m) (IntSIDDelete.mutateFn drv)) := by
  induction fs with
  | nil => rfl
  | cons f fs ih =>
    rw [List.map_cons]
    simp [IntSIDDelete.hookChain, ih]

/-- C5: a nil entry anywhere in a hook list makes `Exec` return affected
count 0 with the uninitialized-hook error; the chain construction aborts
before any mutator is invoked, and the result is independent of the
driver, so no store round-trip occurs. -/
theorem exec_nil_hook_uninitialized (hs1 hs2 : List (Option Hook))
    (drv drv2 : Driver) (m0 : IntSIDMutation) :
    IntSIDDelete.Exec drv (hs1 ++ none :: hs2) m0 =
      (0, some GoErr.uninitializedHook) ∧
    IntSIDDelete.hookChain (hs1 ++ none :: hs2) (IntSIDDelete.mutateFn drv) =
      Except.error GoErr.uninitializedHook ∧
    IntSIDDelete.Exec drv (hs1 ++ none :: hs2) m0 =
      IntSIDDelete.Exec drv2 (hs1 ++ none :: hs2) m0 := by
  have hlist : ∀ dr : Driver,
      IntSIDDelete.Exec dr (hs1 ++ none :: hs2) m0 =
        (0, some GoErr.uninitializedHook) := by
    intro dr
    cases hs1 with
    | nil =>
      have h2 : IntSIDDelete.hookChain (none :: hs2) (IntSIDDelete.mutateFn dr) =
          Except.error GoErr.uninitializedHook := hookChain_none [] hs2 _
      simp [IntSIDDelete.Exec, h2]
    | cons hd tl =>
      have h2 : IntSIDDelete.hookChain (hd :: (tl ++ none :: hs2))
          (IntSIDDelete.mutateFn dr) = Except.error GoErr.uninitializedHook := by
        rw [← List.cons_append]
        exact hookChain_none (hd :: tl) hs2 _
      rw [List.cons_append]
      simp [IntSIDDelete.Exec, h2]
  exact ⟨hlist drv, hookChain_none hs1 hs2 (IntSIDDelete.mutateFn drv),
    (hlist drv).trans (hlist drv2).symm⟩

/-- Applying a predicate list to a selector conjoins each predicate's
condition, in input order, with the accumulated condition: the result is
the conjunction of the original condition and all predicates. -/
theorem applyPreds_cond (ps : List Pred) :
    ∀ (s : Selector) (r : Row),
      (applyPreds ps s).cond r = (s.cond r && ps.all (fun q => q r)) := by
  induction ps with
  | nil => intro s r; simp [applyPreds]
  | cons p ps ih =>
    intro s r
    simp only [applyPreds, List.foldl_cons] at *
    rw [ih (applyPred p s) r]
    simp [applyPred, List.all_cons, Bool.and_assoc]

/-- C7: with no accumulated predicates the delete spec's predicate is
left unset (applying the empty predicate set is a no-op); with at least
one predicate the spec's predicate applies each of them to the selector
in input order, and the resulting condition is the conjunction of the
selector's condition with the logical AND of all predicates. -/
theorem delete_predicates_and_semantics (p : Pred) (ps : List Pred) (b b2 : Bool)
    (s : Selector) (r : Row) :
    (IntSIDDelete.deleteSpecOf { predicates := [], done := b }).predicate = none ∧
    (IntSIDDelete.deleteSpecOf { predicates := p :: ps, done := b2 }).predicate =
      some (fun selector => applyPreds (p :: ps) selector) ∧
    (applyPreds (p :: ps) s).cond r =
      (s.cond r && (p :: ps).all (fun q => q r)) ∧
    (applyPreds [] s).cond r = s.cond r := by
  refine ⟨rfl, ?_, applyPreds_cond (p :: ps) s r, rfl⟩
  simp [IntSIDDelete.deleteSpecOf]

/-- C10: the value returned by the composed hook chain is discarded by
`Exec`; a hook that short-circuits without invoking the next mutator and
returns a non-error value makes `Exec` return the closure-captured
result (0, nil) regardless of that value, while a non-nil error from the
chain is propagated as (0, that error). -/
theorem exec_discards_chain_value (v : Value) (e : GoErr) (drv : Driver)
    (m0 : IntSIDMutation) :
    IntSIDDelete.Exec drv [some (fun _next _m st => ((v, none), st))] m0 =
      (0, none) ∧
    IntSIDDelete.Exec drv [some (fun _next _m st => ((v, some e), st))] m0 =
      (0, some e) := by
  constructor <;> rfl

/-- C6: when the store reports zero affected rows without an error,
`IntSIDDelete.Exec` returns affected count 0 with a nil error (zero
affected rows is not an error by itself), while `IntSIDDeleteOne.Exec`
converts that same zero-row non-error outcome into `NotFoundError` with
the entity label; for one or more affected rows `IntSIDDeleteOne.Exec`
returns nil. -/
theorem exec_zero_rows_not_error (drv : Driver) (m0 : IntSIDMutation) :
    (IntSIDDelete.sqlExec drv m0 = (0, none) →
      IntSIDDelete.Exec drv [] m0 = (0, none) ∧
      IntSIDDeleteOne.Exec drv [] m0 = some (GoErr.notFound intsid.Label)) ∧
    (∀ n : Int, 1 ≤ n → IntSIDDelete.sqlExec drv m0 = (n, none) →
      IntSIDDeleteOne.Exec drv [] m0 = none) := by
  constructor
  · intro h
    have hx : IntSIDDelete.Exec drv [] m0 = (0, none) := h
    refine ⟨hx, ?_⟩
    simp [IntSIDDeleteOne.Exec, hx]
  · intro n hn h
    have hx : IntSIDDelete.Exec drv [] m0 = (n, none) := h
    simp [IntSIDDeleteOne.Exec, hx]
    omega

/-- Witness for C6 with concrete drivers reporting zero rows and one
row. -/
theorem exec_zero_rows_not_error_witness :
    IntSIDDelete.Exec (fun _ => (0, none)) [] { predicates := [], done := false } =
      (0, none) ∧
    IntSIDDeleteOne.Exec (fun _ => (0, none)) [] { predicates := [], done := false } =
      some (GoErr.notFound intsid.Label) ∧
    IntSIDDeleteOne.Exec (fun _ => (1, none)) [] { predicates := [], done := false } =
      none := by
  refine ⟨?_, ?_, ?_⟩
  · exact ((exec_zero_rows_not_error (fun _ => (0, none))
      { predicates := [], done := false }).1 rfl).1
  · exact ((exec_zero_rows_not_error (fun _ => (0, none))
      { predicates := [], done := false }).1 rfl).2
  · exact (exec_zero_rows_not_error (fun _ => (1, none))
      { predicates := [], done := false }).2 1 (by norm_num) rfl

/-- C9: `IntSIDDeleteOne.ExecX` delegates to `IntSIDDelete.ExecX`, so it
panics exactly when `IntSIDDelete.Exec` returns a non-nil error and
returns normally when zero rows are deleted without an error, even
though `IntSIDDeleteOne.Exec` reports `NotFoundError` for that same
zero-row outcome. -/
theorem delete_one_execx_delegation (drv : Driver) (hooks : List (Option Hook))
    (m0 : IntSIDMutation) :
    (∀ e, (IntSIDDelete.Exec drv hooks m0).2 = some e →
      IntSIDDeleteOne.ExecX drv hooks m0 = Except.error e ∧
      IntSIDDelete.ExecX drv hooks m0 = Except.error e) ∧
    ((IntSIDDelete.Exec drv hooks m0).2 = none →
      IntSIDDeleteOne.ExecX drv hooks m0 = Except.ok ()) ∧
    (IntSIDDelete.Exec drv hooks m0 = (0, none) →
      IntSIDDeleteOne.ExecX drv hooks m0 = Except.ok () ∧
      IntSIDDeleteOne.Exec drv hooks m0 = some (GoErr.notFound intsid.Label)) := by
  rcases hE : IntSIDDelete.Exec drv hooks m0 with ⟨n, eo⟩
  cases eo with
  | none =>
    refine ⟨?_, ?_, ?_⟩
    · intro e he
      exact absurd he (by simp)
    · intro _
      simp [IntSIDDeleteOne.ExecX, IntSIDDelete.ExecX, hE]
    · intro hzero
      have hn : n = 0 := by
        have := congrArg Prod.fst hzero
        simpa using this
      subst hn
      constructor
      · simp [IntSIDDeleteOne.ExecX, IntSIDDelete.ExecX, hE]
      · simp [IntSIDDeleteOne.Exec, hE]
  | some e0 =>
    refine ⟨?_, ?_, ?_⟩
    · intro e he
      have he2 : e0 = e := by simpa using he
      subst he2
      constructor
      · simp [IntSIDDeleteOne.ExecX, IntSIDDelete.ExecX, hE]
      · simp [IntSIDDelete.ExecX, hE]
    · intro hno
      exact absurd hno (by simp)
    · intro hzero
      exact absurd (congrArg Prod.snd hzero) (by simp)

/-- Witness for C9 with a concrete zero-row driver: the
panic-on-error variant returns normally while the fallible variant
reports not-found. -/
theorem delete_one_execx_delegation_witness :
    IntSIDDeleteOne.ExecX (fun _ => (0, none)) [] { predicates := [], done := false } =
      Except.ok () ∧
    IntSIDDeleteOne.Exec (fun _ => (0, none)) [] { predicates := [], done := false } =
      some (GoErr.notFound intsid.Label) :=
  (delete_one_execx_delegation (fun _ => (0, none)) []
    { predicates := [], done := false }).2.2 rfl

/-- C8: the TweetTag join table's columns are exactly the two
foreign-key columns (tag_id and tweet_id) plus the edge-scoped fields of
the relation itself (its id and added_at); and, for the uniqueness
constraint on the (source-id, target-id) pair, a conflict-ignoring edge
insert preserves the constraint, makes the pair present, and
re-inserting the same pair leaves the table unchanged, so the table
holds exactly one join row per pair. -/
theorem tweettag_join_table_columns_unique (rows : JoinRows) (p : String × String)
    (h : uniquePair rows) :
    tweettag.Columns =
      [tweettag.FieldID, tweettag.FieldAddedAt, tweettag.TagColumn,
        tweettag.TweetColumn] ∧
    (∀ c, tweettag.ValidColumn c = true ↔
      (c ∈ [tweettag.TagColumn, tweettag.TweetColumn] ∨
       c ∈ [tweettag.FieldID, tweettag.FieldAddedAt])) ∧
    uniquePair (addJoinRow rows p) ∧
    p ∈ addJoinRow rows p ∧
    addJoinRow (addJoinRow rows p) p = addJoinRow rows p := by
  have h' : List.Nodup rows := h
  have hmem : p ∈ addJoinRow rows p := by
    unfold addJoinRow
    split
    · next hin => exact hin
    · next hnot => simp
  refine ⟨rfl, ?_, ?_, hmem, ?_⟩
  · intro c
    simp [tweettag.ValidColumn, tweettag.Columns, tweettag.FieldID,
      tweettag.FieldAddedAt, tweettag.FieldTagID, tweettag.FieldTweetID,
      tweettag.TagColumn, tweettag.TweetColumn]
    tauto
  · unfold uniquePair addJoinRow
    split
    · exact h
    · next hnot =>
      simp [List.nodup_append, h', hnot]
  · show (if p ∈ addJoinRow rows p then addJoinRow rows p
        else addJoinRow rows p ++ [p]) = addJoinRow rows p
    rw [if_pos hmem]

/-- Witness for C8 on the empty join table with a concrete pair. -/
theorem tweettag_join_table_columns_unique_witness :
    uniquePair (addJoinRow [] ("t1", "g1")) ∧
    ("t1", "g1") ∈ addJoinRow [] ("t1", "g1") ∧
    addJoinRow (addJoinRow [] ("t1", "g1")) ("t1", "g1") =
      addJoinRow [] ("t1", "g1") := by
  have h := tweettag_join_table_columns_unique [] ("t1", "g1") List.nodup_nil
  exact ⟨h.2.2.1, h.2.2.2.1, h.2.2.2.2⟩

end Ent
